import Mathlib

/-!
Verification of the submission ingestion pipeline of the ai-interview-server
repository: encoding recovery, file-to-field classification, survey score
computation, orchestrator outcome handling, temporary-file cleanup and
record identifiers, embedded shallowly from the JavaScript sources.

A JavaScript string is modelled as its sequence of UTF-16 code units
(a list of naturals below 2 to the 16). Node buffer semantics:
Buffer.from(s, latin1) keeps the low byte of every code unit, and
buffer.toString(utf8) decodes bytes with the WHATWG UTF-8 decoder, which
replaces each maximal invalid subpart with U+FFFD and never throws.
-/

/-- Node Buffer.from(s, latin1): each UTF-16 code unit is truncated to its
low byte. Used by fixEncoding in part_000 line 57 and by the inline
restoration loops of the other variants. -/
def latin1Encode (s : List Nat) : List Nat :=
  s.map (fun c => c % 0x100)

/-- Lower bound for the first continuation byte after lead byte b
(WHATWG UTF-8 decoder boundaries: E0 needs A0.., F0 needs 90..). -/
def contLo (b : Nat) : Nat :=
  if b = 0xE0 then 0xA0 else if b = 0xF0 then 0x90 else 0x80

/-- Upper bound for the first continuation byte after lead byte b
(ED allows ..9F, F4 allows ..8F). -/
def contHi (b : Nat) : Nat :=
  if b = 0xED then 0x9F else if b = 0xF4 then 0x8F else 0xBF

/-- Node buffer.toString(utf8): the WHATWG UTF-8 decoder with U+FFFD
replacement of each maximal invalid subpart, the byte-restore step of the
specification inlined as reprocessing of the offending suffix. The decoder
never fails: the catch branch of fixEncoding (part_000 lines 59-62) is
unreachable. Output is the list of decoded code points. -/
def utf8DecodeList : List Nat → List Nat
  | [] => []
  | b :: rest =>
    if b ≤ 0x7F then b :: utf8DecodeList rest
    else if 0xC2 ≤ b ∧ b ≤ 0xDF then
      match _h1 : rest with
      | [] => [0xFFFD]
      | b1 :: r =>
        if contLo b ≤ b1 ∧ b1 ≤ contHi b then
          ((b % 0x20) * 0x40 + b1 % 0x40) :: utf8DecodeList r
        else 0xFFFD :: utf8DecodeList rest
    else if 0xE0 ≤ b ∧ b ≤ 0xEF then
      match _h1 : rest with
      | [] => [0xFFFD]
      | b1 :: r1 =>
        if contLo b ≤ b1 ∧ b1 ≤ contHi b then
          match _h2 : r1 with
          | [] => [0xFFFD]
          | b2 :: r =>
            if 0x80 ≤ b2 ∧ b2 ≤ 0xBF then
              ((b % 0x10) * 0x1000 + (b1 % 0x40) * 0x40 + b2 % 0x40) :: utf8DecodeList r
            else 0xFFFD :: utf8DecodeList r1
        else 0xFFFD :: utf8DecodeList rest
    else if 0xF0 ≤ b ∧ b ≤ 0xF4 then
      match _h1 : rest with
      | [] => [0xFFFD]
      | b1 :: r1 =>
        if contLo b ≤ b1 ∧ b1 ≤ contHi b then
          match _h2 : r1 with
          | [] => [0xFFFD]
          | b2 :: r2 =>
            if 0x80 ≤ b2 ∧ b2 ≤ 0xBF then
              match _h3 : r2 with
              | [] => [0xFFFD]
              | b3 :: r =>
                if 0x80 ≤ b3 ∧ b3 ≤ 0xBF then
                  ((b % 0x8) * 0x40000 + (b1 % 0x40) * 0x1000 +
                      (b2 % 0x40) * 0x40 + b3 % 0x40) :: utf8DecodeList r
                else 0xFFFD :: utf8DecodeList r2
            else 0xFFFD :: utf8DecodeList r1
        else 0xFFFD :: utf8DecodeList rest
    else 0xFFFD :: utf8DecodeList rest
termination_by l => l.length
decreasing_by all_goals (subst_vars; simp only [List.length_cons]; omega)

/-- Structural validity of a byte list as UTF-8, with exactly the branch
structure of utf8DecodeList: a list is valid iff the decoder never has to
emit a replacement character for it. -/
def validUtf8 : List Nat → Bool
  | [] => true
  | b :: rest =>
    if b ≤ 0x7F then validUtf8 rest
    else if 0xC2 ≤ b ∧ b ≤ 0xDF then
      match _h1 : rest with
      | [] => false
      | b1 :: r =>
        if contLo b ≤ b1 ∧ b1 ≤ contHi b then validUtf8 r else false
    else if 0xE0 ≤ b ∧ b ≤ 0xEF then
      match _h1 : rest with
      | [] => false
      | b1 :: r1 =>
        if contLo b ≤ b1 ∧ b1 ≤ contHi b then
          match _h2 : r1 with
          | [] => false
          | b2 :: r =>
            if 0x80 ≤ b2 ∧ b2 ≤ 0xBF then validUtf8 r else false
        else false
    else if 0xF0 ≤ b ∧ b ≤ 0xF4 then
      match _h1 : rest with
      | [] => false
      | b1 :: r1 =>
        if contLo b ≤ b1 ∧ b1 ≤ contHi b then
          match _h2 : r1 with
          | [] => false
          | b2 :: r2 =>
            if 0x80 ≤ b2 ∧ b2 ≤ 0xBF then
              match _h3 : r2 with
              | [] => false
              | b3 :: r =>
                if 0x80 ≤ b3 ∧ b3 ≤ 0xBF then validUtf8 r else false
            else false
        else false
    else false
termination_by l => l.length
decreasing_by all_goals (subst_vars; simp only [List.length_cons]; omega)

/-- Encoding of one code point to UTF-16: BMP code points are one code unit,
astral code points become a surrogate pair. JS strings store the result. -/
def utf16EncodeCp (cp : Nat) : List Nat :=
  if cp < 0x10000 then [cp]
  else [0xD800 + (cp - 0x10000) / 0x400, 0xDC00 + (cp - 0x10000) % 0x400]

/-- Encoding of a list of code points to UTF-16 units, into JS string code units. -/
def utf16Encode : List Nat → List Nat
  | [] => []
  | cp :: rest => utf16EncodeCp cp ++ utf16Encode rest

/-- fixEncoding (part_000 lines 54-63) and the inline per-field loops
(server_example.js line 207, part_003 lines 63 and 305):
Buffer.from(s, latin1).toString(utf8), as a map on code-unit sequences.
Neither buffer operation throws, so the JS catch branch is dead code and
the composition below is the whole observable behavior. -/
def fixEncoding (s : List Nat) : List Nat :=
  utf16Encode (utf8DecodeList (latin1Encode s))

/-- A code-unit sequence is a well-formed JS string (no lone surrogates),
i.e. it denotes genuine, already-correct text. -/
def wellFormedUtf16 : List Nat → Bool
  | [] => true
  | c :: rest =>
    if c < 0xD800 ∨ (0xE000 ≤ c ∧ c < 0x10000) then wellFormedUtf16 rest
    else if 0xD800 ≤ c ∧ c ≤ 0xDBFF then
      match _h1 : rest with
      | [] => false
      | c2 :: r =>
        if 0xDC00 ≤ c2 ∧ c2 ≤ 0xDFFF then wellFormedUtf16 r else false
    else false
termination_by l => l.length
decreasing_by all_goals (subst_vars; simp only [List.length_cons]; omega)

/-- JS String.prototype.split with a single-character separator, on the
character list of the string: split("") gives [""], separators at the ends
produce empty segments, exactly as in JS. -/
def splitCharList (sep : Char) : List Char → List (List Char)
  | [] => [[]]
  | c :: rest =>
    if c = sep then [] :: splitCharList sep rest
    else
      match splitCharList sep rest with
      | [] => [[c]]
      | h :: t => (c :: h) :: t

/-- JS String.prototype.includes: substring containment test. -/
def strIncludes (s sub : String) : Bool :=
  (List.range (s.data.length + 1)).any fun i => List.isPrefixOf sub.data (s.data.drop i)

/-- The V17 classifier (part_003 lines 99-107): a field name starting with
the marker audio_q_ is keyed Audio_Q followed by the third
underscore-separated token; consent and survey markers give the fixed PDF
keys; anything else gives no key. When the prefix test succeeds the split
always has a third component, so the JS undefined default below is never
read. -/
def classifyV17 (fieldname : String) : Option String :=
  if List.isPrefixOf "audio_q_".data fieldname.data then
    some ("Audio_Q" ++ String.mk (((splitCharList '_' fieldname.data).get? 2).getD "undefined".data))
  else if strIncludes fieldname "consent" then some "PDF_Consent"
  else if strIncludes fieldname "survey" then some "PDF_Survey"
  else none

/-- The V8 classifier (part_000 lines 105-111; part_002 lines 100-107 are the
same): a field name containing audio reads split(underscore)[1] and calls
toUpperCase on it. In JS, when the field name has no underscore that index
is undefined and the method call throws TypeError, modelled as Except.error.
toUpperCase is modelled as ASCII uppercasing. -/
def classifyV8 (fieldname : String) : Except Unit (Option String) :=
  if strIncludes fieldname "audio" then
    match (splitCharList '_' fieldname.data).get? 1 with
    | some qNum => Except.ok (some ("Audio_" ++ String.mk (qNum.map Char.toUpper)))
    | none => Except.error ()
  else if strIncludes fieldname "consent" then Except.ok (some "PDF_Consent")
  else if strIncludes fieldname "survey" then Except.ok (some "PDF_Survey")
  else Except.ok none

/-- The score helper calculateMean (part_003 lines 449-454): keep the non-null
numeric items, return null if none remain, else the mean rounded to two
decimal places via Math.round(x * 100) / 100. Survey item values reaching it
are parseInt results or null; null and NaN are both dropped by the filter and
are modelled alike as none. JS Math.round x is floor (x + 1/2), which is
Mathlib round; numbers are modelled as exact rationals. -/
def calculateMean (values : List (Option Int)) : Option ℚ :=
  let validValues := values.filterMap id
  if validValues.length = 0 then none
  else some (((round (((validValues.sum : ℚ) / (validValues.length : ℚ)) * 100) : ℤ) : ℚ) / 100)

/-- Sequential upload loop of the isSuccess-guarded variants: each file is
uploaded in order and the first collaborator failure throws, which the
enclosing try/catch converts into isSuccess = false; the loop result is
whether every upload succeeded. Files are identified by naturals and the
storage collaborator is a success predicate. -/
def uploadLoopOk (uploadOk : Nat → Bool) : List Nat → Bool
  | [] => true
  | f :: fs => uploadOk f && uploadLoopOk uploadOk fs

/-- Outcome of one request of the V19 handler (part_003 lines 292-434):
HTTP status sent to the caller and whether the Firestore persistence step
was entered at all. -/
structure OrchestratorResult where
  status : Nat
  persistAttempted : Bool

/-- The V19 orchestrator (part_003 lines 292-434, same guard shape in V4, V6,
V8, V14/15, V17): STEP upload inside try/catch sets isSuccess; Firestore
persistence runs only if isSuccess (line 360); response is 200 on success
and 500 otherwise (lines 422-434). persistOk tells whether the persistence
collaborator succeeds when invoked. -/
def handleV19Orchestrator (uploadOk : Nat → Bool) (persistOk : Bool)
    (files : List Nat) : OrchestratorResult :=
  let u := uploadLoopOk uploadOk files
  { status := if u && persistOk then 200 else 500
    persistAttempted := u }

/-- Outcome of one request of the Drive/Sheets logging variant (part_001):
the per-file links (null on upload failure), whether the Sheets
persistence was attempted, and the HTTP status. -/
structure DriveSheetsResult where
  links : List (Option Nat)
  persistAttempted : Bool
  status : Nat

/-- The part_001 handler (lines 72-147): uploadFileToDrive catches every
upload error and returns null (lines 64-67), so the loop never aborts and
each failed file simply contributes a null link; the Sheets block always
runs and catches its own errors, only logging them (lines 119-121); the
HTTP status is decided solely in the sendMail callback (lines 138-146):
500 when the mail fails, 200 otherwise. -/
def handleDriveSheets (uploadOk : Nat → Bool) (sheetsOk mailOk : Bool)
    (files : List Nat) : DriveSheetsResult :=
  { links := files.map fun f => if uploadOk f then some f else none
    persistAttempted := true
    status := if mailOk then 200 else 500 }

/-- Outcome of one request of the V4 handler (server_example.js lines
54-136): status is none when the handler threw before responding,
persistAttempted tells whether the Sheets step was entered, and deleted
lists the temporary files removed by the cleanup loop. -/
structure V4Result where
  status : Option Nat
  persistAttempted : Bool
  deleted : List Nat

/-- The V4 handler (server_example.js lines 54-136): JSON.parse of
participantInfo at line 59 runs outside every try/catch, so when it throws
the handler aborts before any upload, response or the cleanup loop at line
134, and nothing is deleted; on the parse-ok paths the upload loop and the
guarded Sheets step run, a response is always sent, and the cleanup loop
unlinks every stored temporary file once. -/
def handleV4 (parseOk : Bool) (uploadOk : Nat → Bool) (sheetsOk : Bool)
    (files : List Nat) : V4Result :=
  if parseOk then
    let u := uploadLoopOk uploadOk files
    { status := some (if u && sheetsOk then 200 else 500)
      persistAttempted := u
      deleted := files }
  else
    { status := none
      persistAttempted := false
      deleted := [] }

/-- JS falsy-or fallback `info.name || sentinel` of the V8 handler
(part_000 line 75): a missing name (undefined) or the empty string (falsy)
becomes the sentinel UnknownParticipant. -/
def participantNameV8 (name : Option String) : String :=
  match name with
  | none => "UnknownParticipant"
  | some s => if s = "" then "UnknownParticipant" else s

/-- Same fallback in the V19 handler (part_003 line 230) with sentinel
Unknown. -/
def participantNameV19 (name : Option String) : String :=
  match name with
  | none => "Unknown"
  | some s => if s = "" then "Unknown" else s

/-- The document identifier and storage destinations the V8 handler derives
from one submission (part_000 lines 76-77, 89, 131): docId is computed once
and used verbatim both in every storage destination path and as the
Firestore document id. -/
structure V8Outputs where
  recordDocId : String
  storagePaths : List String

/-- The derivation of part_000 lines 74-77 and the uses of docId at lines 89 and 131. -/
def v8Outputs (timestamp : String) (name : Option String)
    (filenames : List String) : V8Outputs :=
  let participantName := participantNameV8 name
  let docId := timestamp ++ "_" ++ participantName
  { recordDocId := docId
    storagePaths := filenames.map fun fn => "results/" ++ docId ++ "/" ++ fn }

/-- Identifiers bound in the body of the V19 field-restoration loop
(part_003 lines 212-225): the loop constants key and value. No declaration
of restoredValue exists anywhere in the handler. -/
def v19LoopScope (key value : String) : List (String × String) :=
  [("key", key), ("value", value)]

/-- Evaluating an identifier in a scope: an unbound identifier raises
ReferenceError, modelled as Except.error. -/
def lookupIdent (env : List (String × String)) (x : String) : Except Unit String :=
  match env.lookup x with
  | some v => Except.ok v
  | none => Except.error ()

/-- The try block of the V19 restoration loop (part_003 lines 215-217): it
evaluates restoredValue, which is not bound in scope, so the block raises
ReferenceError before assigning anything. -/
def v19TryBranch (key value : String) : Except Unit String :=
  lookupIdent (v19LoopScope key value) "restoredValue"

/-- One iteration of the V19 restoration loop (part_003 lines 212-225): on
the ReferenceError the catch at lines 218-221 stores the original value. -/
def v19RestoreField (key value : String) : String :=
  match v19TryBranch key value with
  | Except.ok v => v
  | Except.error _ => value

/-- The whole V19 restoration loop: rawData collects every string field of
req.body through v19RestoreField. -/
def buildRawDataV19 (body : List (String × String)) : List (String × String) :=
  body.map fun kv => (kv.1, v19RestoreField kv.1 kv.2)

example : fixEncoding [0x61, 0x62] = [0x61, 0x62] := by
  simp [fixEncoding, latin1Encode, utf8DecodeList, utf16Encode, utf16EncodeCp]
example : fixEncoding [0xD55C] = [0x5C] := by
  simp [fixEncoding, latin1Encode, utf8DecodeList, utf16Encode, utf16EncodeCp, contLo, contHi]
example : fixEncoding [0xE9] = [0xFFFD] := by
  simp [fixEncoding, latin1Encode, utf8DecodeList, utf16Encode, utf16EncodeCp, contLo, contHi]
example : fixEncoding [0xC3, 0xA9] = [0xE9] := by
  simp [fixEncoding, latin1Encode, utf8DecodeList, utf16Encode, utf16EncodeCp, contLo, contHi]
example : validUtf8 [0xE9] = false := by
  simp [validUtf8, contLo, contHi]
example : utf8DecodeList [0xE0, 0x80] = [0xFFFD, 0xFFFD] := by
  simp [utf8DecodeList, contLo, contHi]
example : utf8DecodeList [0xED, 0xA0, 0x80] = [0xFFFD, 0xFFFD, 0xFFFD] := by
  simp [utf8DecodeList, contLo, contHi]
example : utf8DecodeList [0xF0, 0x90, 0x80, 0x80] = [0x10000] := by
  simp [utf8DecodeList, contLo, contHi]
example : utf16Encode [0x10000] = [0xD800, 0xDC00] := by
  simp [utf16Encode, utf16EncodeCp]

lemma latin1Encode_of_ascii (s : List Nat) (h : ∀ c ∈ s, c < 0x80) :
    latin1Encode s = s := by
  induction s with
  | nil => rfl
  | cons c rest ih =>
    have hc : c < 0x80 := h c (List.mem_cons_self c rest)
    have hrest : ∀ x ∈ rest, x < 0x80 := fun x hx => h x (List.mem_cons_of_mem c hx)
    simp only [latin1Encode, List.map_cons]
    rw [Nat.mod_eq_of_lt (by omega)]
    have := ih hrest
    simp only [latin1Encode] at this
    rw [this]

lemma utf8DecodeList_of_ascii (bs : List Nat) (h : ∀ b ∈ bs, b < 0x80) :
    utf8DecodeList bs = bs := by
  induction bs with
  | nil => simp [utf8DecodeList]
  | cons b rest ih =>
    have hb : b ≤ 0x7F := by
      have := h b (List.mem_cons_self b rest)
      omega
    have hrest : ∀ x ∈ rest, x < 0x80 := fun x hx => h x (List.mem_cons_of_mem b hx)
    rw [utf8DecodeList.eq_def]; simp only [if_pos hb, ih hrest]

lemma utf16Encode_of_bmp (l : List Nat) (h : ∀ c ∈ l, c < 0x10000) :
    utf16Encode l = l := by
  induction l with
  | nil => rfl
  | cons c rest ih =>
    have hc : c < 0x10000 := h c (List.mem_cons_self c rest)
    have hrest : ∀ x ∈ rest, x < 0x10000 := fun x hx => h x (List.mem_cons_of_mem c hx)
    rw [utf16Encode, utf16EncodeCp, if_pos hc, ih hrest]
    rfl

lemma mem_utf16Encode_of_mem (l : List Nat) (x : Nat) (hx : x ∈ l) (hlt : x < 0x10000) :
    x ∈ utf16Encode l := by
  induction l with
  | nil => cases hx
  | cons c rest ih =>
    rw [utf16Encode]
    rcases List.mem_cons.mp hx with rfl | hmem
    · rw [utf16EncodeCp, if_pos hlt]
      exact List.mem_append_left _ (List.mem_singleton_self x)
    · exact List.mem_append_right _ (ih hmem)

lemma validUtf8_of_not_fffd_mem :
    ∀ (n : Nat) (bs : List Nat), bs.length ≤ n →
      ¬ (0xFFFD ∈ utf8DecodeList bs) → validUtf8 bs = true := by
  intro n
  induction n with
  | zero =>
    intro bs hlen _
    cases bs with
    | nil => simp [validUtf8]
    | cons b rest => simp at hlen
  | succ n ih =>
    intro bs hlen h
    cases bs with
    | nil => simp [validUtf8]
    | cons b rest =>
      simp only [List.length_cons] at hlen
      by_cases hb1 : b ≤ 0x7F
      · have hd : utf8DecodeList (b :: rest) = b :: utf8DecodeList rest := by
          rw [utf8DecodeList.eq_def]; simp only [if_pos hb1]
        have hv : validUtf8 (b :: rest) = validUtf8 rest := by
          rw [validUtf8.eq_def]; simp only [if_pos hb1]
        rw [hd] at h
        rw [hv]
        exact ih rest (by omega) fun hm => h (List.mem_cons_of_mem _ hm)
      · by_cases hb2 : 0xC2 ≤ b ∧ b ≤ 0xDF
        · cases rest with
          | nil =>
            exfalso
            apply h
            rw [utf8DecodeList.eq_def]; simp only [if_neg hb1, if_pos hb2]
            exact List.mem_singleton_self _
          | cons b1 r =>
            simp only [List.length_cons] at hlen
            by_cases hc1 : contLo b ≤ b1 ∧ b1 ≤ contHi b
            · have hd : utf8DecodeList (b :: b1 :: r)
                  = ((b % 0x20) * 0x40 + b1 % 0x40) :: utf8DecodeList r := by
                rw [utf8DecodeList.eq_def]; simp only [if_neg hb1, if_pos hb2]
                simp only [if_pos hc1]
              have hv : validUtf8 (b :: b1 :: r) = validUtf8 r := by
                rw [validUtf8.eq_def]; simp only [if_neg hb1, if_pos hb2]
                simp only [if_pos hc1]
              rw [hd] at h
              rw [hv]
              exact ih r (by omega) fun hm => h (List.mem_cons_of_mem _ hm)
            · exfalso
              apply h
              rw [utf8DecodeList.eq_def]; simp only [if_neg hb1, if_pos hb2]
              simp only [if_neg hc1]
              exact List.mem_cons_self _ _
        · by_cases hb3 : 0xE0 ≤ b ∧ b ≤ 0xEF
          · cases rest with
            | nil =>
              exfalso
              apply h
              rw [utf8DecodeList.eq_def]; simp only [if_neg hb1, if_neg hb2, if_pos hb3]
              exact List.mem_singleton_self _
            | cons b1 r1 =>
              simp only [List.length_cons] at hlen
              by_cases hc1 : contLo b ≤ b1 ∧ b1 ≤ contHi b
              · cases r1 with
                | nil =>
                  exfalso
                  apply h
                  rw [utf8DecodeList.eq_def]; simp only [if_neg hb1, if_neg hb2, if_pos hb3]
                  simp only [if_pos hc1]
                  exact List.mem_singleton_self _
                | cons b2 r =>
                  simp only [List.length_cons] at hlen
                  by_cases hc2 : 0x80 ≤ b2 ∧ b2 ≤ 0xBF
                  · have hd : utf8DecodeList (b :: b1 :: b2 :: r)
                        = ((b % 0x10) * 0x1000 + (b1 % 0x40) * 0x40 + b2 % 0x40)
                            :: utf8DecodeList r := by
                      rw [utf8DecodeList.eq_def]; simp only [if_neg hb1, if_neg hb2, if_pos hb3]
                      simp only [if_pos hc1, if_pos hc2]
                    have hv : validUtf8 (b :: b1 :: b2 :: r) = validUtf8 r := by
                      rw [validUtf8.eq_def]; simp only [if_neg hb1, if_neg hb2, if_pos hb3]
                      simp only [if_pos hc1, if_pos hc2]
                    rw [hd] at h
                    rw [hv]
                    exact ih r (by omega) fun hm => h (List.mem_cons_of_mem _ hm)
                  · exfalso
                    apply h
                    rw [utf8DecodeList.eq_def]; simp only [if_neg hb1, if_neg hb2, if_pos hb3]
                    simp only [if_pos hc1, if_neg hc2]
                    exact List.mem_cons_self _ _
              · exfalso
                apply h
                rw [utf8DecodeList.eq_def]; simp only [if_neg hb1, if_neg hb2, if_pos hb3]
                simp only [if_neg hc1]
                exact List.mem_cons_self _ _
          · by_cases hb4 : 0xF0 ≤ b ∧ b ≤ 0xF4
            · cases rest with
              | nil =>
                exfalso
                apply h
                rw [utf8DecodeList.eq_def]; simp only [if_neg hb1, if_neg hb2, if_neg hb3, if_pos hb4]
                exact List.mem_singleton_self _
              | cons b1 r1 =>
                simp only [List.length_cons] at hlen
                by_cases hc1 : contLo b ≤ b1 ∧ b1 ≤ contHi b
                · cases r1 with
                  | nil =>
                    exfalso
                    apply h
                    rw [utf8DecodeList.eq_def]; simp only [if_neg hb1, if_neg hb2, if_neg hb3, if_pos hb4]
                    simp only [if_pos hc1]
                    exact List.mem_singleton_self _
                  | cons b2 r2 =>
                    simp only [List.length_cons] at hlen
                    by_cases hc2 : 0x80 ≤ b2 ∧ b2 ≤ 0xBF
                    · cases r2 with
                      | nil =>
                        exfalso
                        apply h
                        rw [utf8DecodeList.eq_def]; simp only [if_neg hb1, if_neg hb2, if_neg hb3, if_pos hb4]
                        simp only [if_pos hc1, if_pos hc2]
                        exact List.mem_singleton_self _
                      | cons b3 r =>
                        simp only [List.length_cons] at hlen
                        by_cases hc3 : 0x80 ≤ b3 ∧ b3 ≤ 0xBF
                        · have hd : utf8DecodeList (b :: b1 :: b2 :: b3 :: r)
                              = ((b % 0x8) * 0x40000 + (b1 % 0x40) * 0x1000 +
                                  (b2 % 0x40) * 0x40 + b3 % 0x40) :: utf8DecodeList r := by
                            rw [utf8DecodeList.eq_def]; simp only [if_neg hb1, if_neg hb2, if_neg hb3, if_pos hb4]
                            simp only [if_pos hc1, if_pos hc2, if_pos hc3]
                          have hv : validUtf8 (b :: b1 :: b2 :: b3 :: r) = validUtf8 r := by
                            rw [validUtf8.eq_def]; simp only [if_neg hb1, if_neg hb2, if_neg hb3, if_pos hb4]
                            simp only [if_pos hc1, if_pos hc2, if_pos hc3]
                          rw [hd] at h
                          rw [hv]
                          exact ih r (by omega) fun hm => h (List.mem_cons_of_mem _ hm)
                        · exfalso
                          apply h
                          rw [utf8DecodeList.eq_def]; simp only [if_neg hb1, if_neg hb2, if_neg hb3, if_pos hb4]
                          simp only [if_pos hc1, if_pos hc2, if_neg hc3]
                          exact List.mem_cons_self _ _
                    · exfalso
                      apply h
                      rw [utf8DecodeList.eq_def]; simp only [if_neg hb1, if_neg hb2, if_neg hb3, if_pos hb4]
                      simp only [if_pos hc1, if_neg hc2]
                      exact List.mem_cons_self _ _
                · exfalso
                  apply h
                  rw [utf8DecodeList.eq_def]; simp only [if_neg hb1, if_neg hb2, if_neg hb3, if_pos hb4]
                  simp only [if_neg hc1]
                  exact List.mem_cons_self _ _
            · exfalso
              apply h
              rw [utf8DecodeList.eq_def]; simp only [if_neg hb1, if_neg hb2, if_neg hb3, if_neg hb4]
              exact List.mem_cons_self _ _

/-- Claim C1 (corrected): the original claim states normalize(s) = s for every
already-correct UTF-8 string s. That fails (see the counterexample); what holds
is that fixEncoding is the identity exactly on strings whose code units are all
ASCII: for those, the latin1 reinterpretation and the UTF-8 redecode both act
as the identity, so un-corrupted ASCII text survives re-normalization. -/
theorem c1_normalize_identity_on_ascii (s : List Nat) (h : ∀ c ∈ s, c < 0x80) :
    fixEncoding s = s := by
  have h1 := latin1Encode_of_ascii s h
  have h2 := utf8DecodeList_of_ascii s h
  have h3 := utf16Encode_of_bmp s (fun c hc => lt_trans (h c hc) (by norm_num))
  show utf16Encode (utf8DecodeList (latin1Encode s)) = s
  rw [h1, h2, h3]

/-- Witness for C1: the ASCII string abc is a fixed point of fixEncoding. -/
theorem c1_normalize_identity_on_ascii_witness :
    fixEncoding [0x61, 0x62, 0x63] = [0x61, 0x62, 0x63] :=
  c1_normalize_identity_on_ascii [0x61, 0x62, 0x63] (by decide)

/-- Counterexample to C1 as stated: the single Hangul syllable U+D55C is a
well-formed, already-correct string, yet fixEncoding maps it to the single
code unit 0x5C (a backslash): normalization corrupts valid non-ASCII text
rather than leaving it unchanged. -/
theorem c1_normalize_corrupts_hangul :
    wellFormedUtf16 [0xD55C] = true ∧ fixEncoding [0xD55C] = [0x5C]
      ∧ fixEncoding [0xD55C] ≠ [0xD55C] := by
  have h2 : fixEncoding [0xD55C] = [0x5C] := by
    simp [fixEncoding, latin1Encode, utf8DecodeList, utf16Encode, utf16EncodeCp]
  refine ⟨by simp [wellFormedUtf16], h2, ?_⟩
  rw [h2]
  decide

/-- Claim C2 (corrected): the original claim states that on input whose
latin1-reinterpreted bytes are not valid UTF-8, normalize returns the original
string unchanged. In fact Node never signals a decode failure: the WHATWG
decoder replaces every maximal invalid subpart with U+FFFD, so whenever the
byte sequence is invalid the output contains the replacement character
U+FFFD; the error branch returning the original is unreachable. -/
theorem c2_invalid_input_gets_replacement_char (s : List Nat)
    (h : validUtf8 (latin1Encode s) = false) :
    0xFFFD ∈ fixEncoding s := by
  have hmem : 0xFFFD ∈ utf8DecodeList (latin1Encode s) := by
    by_contra hc
    have hv := validUtf8_of_not_fffd_mem (latin1Encode s).length (latin1Encode s) le_rfl hc
    rw [hv] at h
    exact Bool.noConfusion h
  show 0xFFFD ∈ utf16Encode (utf8DecodeList (latin1Encode s))
  exact mem_utf16Encode_of_mem _ _ hmem (by norm_num)

/-- Witness for C2: the one-unit string 0xE9 reinterprets to the invalid byte
sequence E9; the normalized output contains U+FFFD. -/
theorem c2_invalid_input_gets_replacement_char_witness :
    0xFFFD ∈ fixEncoding [0xE9] :=
  c2_invalid_input_gets_replacement_char [0xE9]
    (by simp [validUtf8, latin1Encode, contLo, contHi])

/-- Counterexample to C2 as stated: on the invalid byte sequence E9 the
normalizer does not return the original string; it substitutes the
replacement character U+FFFD. -/
theorem c2_replacement_instead_of_original :
    validUtf8 (latin1Encode [0xE9]) = false
      ∧ fixEncoding [0xE9] = [0xFFFD]
      ∧ fixEncoding [0xE9] ≠ [0xE9] := by
  have h2 : fixEncoding [0xE9] = [0xFFFD] := by
    simp [fixEncoding, latin1Encode, utf8DecodeList, utf16Encode, utf16EncodeCp, contLo, contHi]
  refine ⟨by simp [validUtf8, latin1Encode, contLo, contHi], h2, ?_⟩
  rw [h2]
  decide

example : classifyV17 "audio_q_3" = some "Audio_Q3" := by decide
example : classifyV17 "consent_form" = some "PDF_Consent" := by decide
example : classifyV17 "survey_pdf" = some "PDF_Survey" := by decide
example : classifyV17 "portrait" = none := by decide
example : classifyV8 "audio_q_3" = Except.ok (some "Audio_Q") := rfl
example : classifyV8 "audio" = Except.error () := rfl
example : classifyV8 "name" = Except.ok none := rfl

lemma strDataAppend (s t : String) : (s ++ t).data = s.data ++ t.data := rfl

lemma isPrefixOf_append_self (l m : List Char) : List.isPrefixOf l (l ++ m) = true := by
  induction l with
  | nil => simp [List.isPrefixOf]
  | cons a t ih =>
    simp only [List.cons_append, List.isPrefixOf, beq_self_eq_true, Bool.true_and]
    exact ih

lemma splitCharList_ne_nil (sep : Char) (l : List Char) : splitCharList sep l ≠ [] := by
  cases l with
  | nil => simp [splitCharList]
  | cons c rest =>
    simp only [splitCharList]
    by_cases hc : c = sep
    · rw [if_pos hc]
      simp
    · rw [if_neg hc]
      rcases hsp : splitCharList sep rest with _ | ⟨h2, t⟩ <;> simp

lemma splitCharList_of_not_mem (sep : Char) (l : List Char) (h : sep ∉ l) :
    splitCharList sep l = [l] := by
  induction l with
  | nil => rfl
  | cons c rest ih =>
    have hc : ¬ c = sep := fun hc => h (hc ▸ List.mem_cons_self _ _)
    have hr := ih fun hm => h (List.mem_cons_of_mem _ hm)
    simp only [splitCharList, if_neg hc, hr]

lemma splitCharList_cons_sep (sep : Char) (l : List Char) :
    splitCharList sep (sep :: l) = [] :: splitCharList sep l := by
  simp [splitCharList]

lemma splitCharList_append (sep : Char) (l1 l2 : List Char) (hsep : sep ∉ l1) :
    splitCharList sep (l1 ++ l2)
      = (l1 ++ (splitCharList sep l2).headI) :: (splitCharList sep l2).tail := by
  induction l1 with
  | nil =>
    simp only [List.nil_append]
    obtain ⟨h2, t, heq⟩ := List.exists_cons_of_ne_nil (splitCharList_ne_nil sep l2)
    rw [heq]
    rfl
  | cons c l1 ih =>
    have hc : ¬ c = sep := fun hc => hsep (hc ▸ List.mem_cons_self _ _)
    have hne : sep ∉ l1 := fun hm => hsep (List.mem_cons_of_mem _ hm)
    simp only [List.cons_append, splitCharList, if_neg hc, List.append_eq, ih hne,
      List.cons_append]

lemma splitCharList_length (sep : Char) (l : List Char) :
    (splitCharList sep l).length = l.count sep + 1 := by
  induction l with
  | nil => rfl
  | cons c rest ih =>
    by_cases hc : c = sep
    · subst hc
      simp only [splitCharList, eq_self_iff_true, if_true, List.length_cons, ih,
        List.count_cons_self]
    · simp only [splitCharList, if_neg hc]
      obtain ⟨h2, t, heq⟩ := List.exists_cons_of_ne_nil (splitCharList_ne_nil sep rest)
      rw [heq]
      have hlen : (h2 :: t).length = rest.count sep + 1 := heq ▸ ih
      simp only [List.length_cons] at hlen ⊢
      rw [List.count_cons_of_ne (fun hx => hc hx.symm)]
      omega

lemma get1_split_eq_none_iff (s : String) :
    (splitCharList '_' s.data).get? 1 = none ↔ ('_' : Char) ∉ s.data := by
  rw [List.get?_eq_none, splitCharList_length]
  constructor
  · intro hle
    have hz : s.data.count '_' = 0 := by omega
    exact List.count_eq_zero.mp hz
  · intro hnm
    have hz : s.data.count '_' = 0 := List.count_eq_zero.mpr hnm
    omega

/-- Claim C3 (corrected): the original claim states that a field name with the
audio marker followed by an underscore and a question number n yields the key
Audio underscore n, e.g. audio_q_3 yields Audio_3. On the code the key is
Audio_Q followed by the token after the marker: for every suffix n without an
underscore, the V17 classifier maps audio_q_ ++ n to Audio_Q ++ n,
deterministically, with n extracted as the token following the marker. -/
theorem c3_classifyV17_audio_key (n : String) (h : ('_' : Char) ∉ n.data) :
    classifyV17 ("audio_q_" ++ n) = some ("Audio_Q" ++ n) := by
  have hdata : ("audio_q_" ++ n).data = "audio_q_".data ++ n.data := strDataAppend _ _
  have hpre : List.isPrefixOf "audio_q_".data ("audio_q_" ++ n).data = true := by
    rw [hdata]
    exact isPrefixOf_append_self _ _
  have hsplit : splitCharList '_' ("audio_q_" ++ n).data
      = ["audio".data, "q".data, n.data] := by
    rw [hdata]
    have e1 : "audio_q_".data ++ n.data
        = "audio".data ++ ('_' :: ("q".data ++ ('_' :: n.data))) := rfl
    rw [e1]
    rw [splitCharList_append '_' "audio".data _ (by decide)]
    rw [splitCharList_cons_sep]
    rw [splitCharList_append '_' "q".data _ (by decide)]
    rw [splitCharList_cons_sep]
    rw [splitCharList_of_not_mem '_' n.data h]
    simp
  have hget : (splitCharList '_' ("audio_q_" ++ n).data).get? 2 = some n.data := by
    rw [hsplit]
    rfl
  unfold classifyV17
  rw [hpre, if_pos rfl, hget]
  rfl

/-- Witness for C3: the field name audio_q_7 gets the key Audio_Q7. -/
theorem c3_classifyV17_audio_key_witness :
    classifyV17 ("audio_q_" ++ "7") = some ("Audio_Q" ++ "7") :=
  c3_classifyV17_audio_key "7" (by decide)

/-- Counterexample to C3 as stated: audio_q_3 is keyed Audio_Q3, not Audio_3. -/
theorem c3_audio_q_3_gives_Audio_Q3 :
    classifyV17 "audio_q_3" = some "Audio_Q3"
      ∧ classifyV17 "audio_q_3" ≠ some "Audio_3" := by
  constructor
  · rfl
  · decide

/-- Claim C4 (corrected): the original claim states the classifier never
throws, citing the V8 and V6 variants. In those variants the audio branch
reads split(underscore)[1] and calls toUpperCase on it, which throws TypeError
exactly when the field name contains the audio marker but no underscore at
all; on every other input the classifier returns a key or none, and a field
name with none of the three markers degrades to none. -/
theorem c4_classifyV8_total_with_throw_boundary (s : String) :
    (classifyV8 s = Except.error () ↔
      strIncludes s "audio" = true ∧ ('_' : Char) ∉ s.data)
    ∧ (strIncludes s "audio" = false → strIncludes s "consent" = false →
        strIncludes s "survey" = false → classifyV8 s = Except.ok none) := by
  have hnone := get1_split_eq_none_iff s
  by_cases hin : strIncludes s "audio" = true
  · refine ⟨?_, ?_⟩
    · cases hget : (splitCharList '_' s.data).get? 1 with
      | none =>
        have hget2 : (splitCharList '_' s.data)[1]? = none := by
          rw [← List.get?_eq_getElem?]
          exact hget
        have hcls : classifyV8 s = Except.error () := by
          simp [classifyV8, hin, hget2]
        rw [hcls]
        constructor
        · intro _
          exact ⟨hin, hnone.mp hget⟩
        · intro _
          rfl
      | some q =>
        have hget2 : (splitCharList '_' s.data)[1]? = some q := by
          rw [← List.get?_eq_getElem?]
          exact hget
        have hcls : classifyV8 s
            = Except.ok (some ("Audio_" ++ String.mk (q.map Char.toUpper))) := by
          simp [classifyV8, hin, hget2]
        constructor
        · intro herr
          rw [hcls] at herr
          exact Except.noConfusion herr
        · rintro ⟨-, hnm⟩
          rw [hnone.mpr hnm] at hget
          exact Option.noConfusion hget
    · intro hfalse _ _
      rw [hin] at hfalse
      exact Bool.noConfusion hfalse
  · have hin' : strIncludes s "audio" = false := by
      revert hin
      cases strIncludes s "audio" <;> simp
    refine ⟨?_, ?_⟩
    · constructor
      · intro herr
        exfalso
        by_cases hc : strIncludes s "consent" = true
        · have hcls : classifyV8 s = Except.ok (some "PDF_Consent") := by
            simp [classifyV8, hin', hc]
          rw [hcls] at herr
          exact Except.noConfusion herr
        · have hc' : strIncludes s "consent" = false := by
            revert hc
            cases strIncludes s "consent" <;> simp
          by_cases hsv : strIncludes s "survey" = true
          · have hcls : classifyV8 s = Except.ok (some "PDF_Survey") := by
              simp [classifyV8, hin', hc', hsv]
            rw [hcls] at herr
            exact Except.noConfusion herr
          · have hsv' : strIncludes s "survey" = false := by
              revert hsv
              cases strIncludes s "survey" <;> simp
            have hcls : classifyV8 s = Except.ok none := by
              simp [classifyV8, hin', hc', hsv']
            rw [hcls] at herr
            exact Except.noConfusion herr
      · rintro ⟨ha, -⟩
        rw [hin'] at ha
        exact Bool.noConfusion ha
    · intro _ hc hsv
      simp [classifyV8, hin', hc, hsv]

/-- Witness for C4: the unrecognized field name name gives none. -/
theorem c4_classifyV8_witness : classifyV8 "name" = Except.ok none :=
  (c4_classifyV8_total_with_throw_boundary "name").2 rfl rfl rfl

/-- Counterexample to C4 as stated: the field name audio contains the audio
marker but no underscore-separated token after it, and the V8 classifier
throws (TypeError on undefined) instead of returning a key or none. -/
theorem c4_classifyV8_throws_on_audio : classifyV8 "audio" = Except.error () := rfl

example : calculateMean [] = none := by simp [calculateMean]
example : calculateMean [some 1, some 2] = some (3/2) := by
  simp only [calculateMean, List.filterMap_cons, id_eq, List.filterMap_nil, List.length_cons,
    List.length_nil, List.sum_cons, List.sum_nil]
  norm_num [round_ofNat]

/-- Claim C5 (confirmed): the section score is the 2-decimal rounded mean of
the non-null items, invariant under permutation of the items, null (not 0 or
NaN) when the section has no valid item, and nulls are excluded rather than
zero-filled: score [3,4,5] = 4.0 and score [3,null,5] = 4.0. -/
theorem c5_calculateMean_spec (l l' z : List (Option Int))
    (hperm : l.Perm l') (hz : z.filterMap id = []) :
    calculateMean l = calculateMean l'
    ∧ calculateMean z = none
    ∧ calculateMean [some 3, some 4, some 5] = some 4
    ∧ calculateMean [some 3, none, some 5] = some 4 := by
  refine ⟨?_, ?_, ?_, ?_⟩
  · have hp : (l.filterMap id).Perm (l'.filterMap id) := hperm.filterMap id
    simp only [calculateMean, hp.length_eq, hp.sum_eq]
  · simp [calculateMean, hz]
  · simp only [calculateMean, List.filterMap_cons, id_eq, List.filterMap_nil, List.length_cons,
      List.length_nil, List.sum_cons, List.sum_nil]
    norm_num [round_ofNat]
  · simp only [calculateMean, List.filterMap_cons, id_eq, List.filterMap_nil, List.length_cons,
      List.length_nil, List.sum_cons, List.sum_nil]
    norm_num [round_ofNat]

/-- Witness for C5 at concrete sections: a permuted section with a null item,
an all-null section, and the two example sections from the spec. -/
theorem c5_calculateMean_spec_witness :
    calculateMean [some 3, none, some 5] = calculateMean [none, some 5, some 3]
    ∧ calculateMean [none, none] = none
    ∧ calculateMean [some 3, some 4, some 5] = some 4
    ∧ calculateMean [some 3, none, some 5] = some 4 :=
  c5_calculateMean_spec [some 3, none, some 5] [none, some 5, some 3] [none, none]
    (by decide) (by decide)

lemma uploadLoopOk_eq_false (uploadOk : Nat → Bool) {f : Nat} :
    ∀ {files : List Nat}, f ∈ files → uploadOk f = false →
      uploadLoopOk uploadOk files = false := by
  intro files
  induction files with
  | nil => intro hmem _; cases hmem
  | cons a t ih =>
    intro hmem hup
    rcases List.mem_cons.mp hmem with rfl | hmem
    · simp [uploadLoopOk, hup]
    · simp [uploadLoopOk, ih hmem hup]

/-- Claim C6 (corrected): in the isSuccess-guarded variants (here V19), a
failing upload of any file makes the outcome Failed(upload): persistence is
never attempted and the caller receives the 500 response. The part_001
variant violates the all-or-nothing rule, see the counterexample. -/
theorem c6_upload_failure_all_or_nothing (uploadOk : Nat → Bool) (persistOk : Bool)
    (files : List Nat) (f : Nat) (hf : f ∈ files) (hfail : uploadOk f = false) :
    (handleV19Orchestrator uploadOk persistOk files).status = 500
    ∧ (handleV19Orchestrator uploadOk persistOk files).persistAttempted = false := by
  have hu := uploadLoopOk_eq_false uploadOk hf hfail
  constructor <;> simp [handleV19Orchestrator, hu]

/-- Witness for C6: two files of which the second fails to upload. -/
theorem c6_upload_failure_all_or_nothing_witness :
    (handleV19Orchestrator (fun n => n == 0) true [0, 1]).status = 500
    ∧ (handleV19Orchestrator (fun n => n == 0) true [0, 1]).persistAttempted = false :=
  c6_upload_failure_all_or_nothing (fun n => n == 0) true [0, 1] 1 (by decide) (by decide)

/-- Counterexample to C6 as stated for every variant: in the part_001
variant an upload failure yields a null link, persistence is still
attempted, and the caller receives 200 when the mail succeeds. -/
theorem c6_drive_variant_persists_after_upload_failure :
    (handleDriveSheets (fun _ => false) true true [0]).status = 200
    ∧ (handleDriveSheets (fun _ => false) true true [0]).persistAttempted = true
    ∧ (handleDriveSheets (fun _ => false) true true [0]).links = [none] :=
  ⟨rfl, rfl, rfl⟩

/-- Claim C7 (corrected): in the variants that send the notification email
at all (part_001 and the trailing plain example of server_example.js), a
sendMail failure makes the response 500 even though uploads and persistence
already succeeded: notification failure does fail the submission response,
though the persisted record is unaffected. -/
theorem c7_mail_failure_fails_response (uploadOk : Nat → Bool) (sheetsOk : Bool)
    (files : List Nat) :
    (handleDriveSheets uploadOk sheetsOk false files).status = 500
    ∧ (handleDriveSheets uploadOk sheetsOk false files).persistAttempted = true :=
  ⟨rfl, rfl⟩

/-- Counterexample to C7 as stated: all uploads succeed, the sheet row is
written, the mail callback reports an error, and the caller receives 500
rather than the claimed 200. -/
theorem c7_mail_failure_not_200 :
    (handleDriveSheets (fun _ => true) true false [0]).links = [some 0]
    ∧ (handleDriveSheets (fun _ => true) true false [0]).persistAttempted = true
    ∧ (handleDriveSheets (fun _ => true) true false [0]).status ≠ 200 := by
  refine ⟨rfl, rfl, ?_⟩
  decide

/-- Claim C8 (corrected): on the paths where the form fields parse, every
temporary file of the request is deleted exactly once whatever the outcome
of upload or persistence; but an error thrown while parsing the fields
(JSON.parse outside any try/catch, server_example.js line 59) aborts the
handler before cleanup and leaves every temporary file behind, see the
counterexample. -/
theorem c8_cleanup_exactly_once_when_parse_ok (uploadOk : Nat → Bool)
    (sheetsOk : Bool) (files : List Nat) (f : Nat)
    (hnd : files.Nodup) (hf : f ∈ files) :
    (handleV4 true uploadOk sheetsOk files).deleted.count f = 1 := by
  have hd : (handleV4 true uploadOk sheetsOk files).deleted = files := rfl
  rw [hd]
  exact List.count_eq_one_of_mem hnd hf

/-- Witness for C8: two distinct temporary files, each deleted once. -/
theorem c8_cleanup_exactly_once_when_parse_ok_witness :
    (handleV4 true (fun _ => true) true [3, 4]).deleted.count 4 = 1 :=
  c8_cleanup_exactly_once_when_parse_ok (fun _ => true) true [3, 4] 4
    (by decide) (by decide)

/-- Counterexample to C8 as stated: when parsing participantInfo throws, the
V4 handler exits before the cleanup loop and the stored temporary file is
deleted zero times, not exactly once. -/
theorem c8_parse_error_skips_cleanup :
    (handleV4 false (fun _ => true) true [7]).deleted = []
    ∧ (handleV4 false (fun _ => true) true [7]).deleted.count 7 ≠ 1 := by
  refine ⟨rfl, ?_⟩
  decide

/-- Claim C9 (confirmed): the derived participant identifier is never empty,
missing or empty names fall back to the sentinel, the documentId is the
timestamp, an underscore separator, then the participant name, and the one
docId computed per submission is used verbatim in every storage destination
path and as the persisted record id. -/
theorem c9_docid_created_once_and_nonempty (timestamp : String)
    (name : Option String) (filenames : List String) :
    participantNameV8 name ≠ ""
    ∧ participantNameV19 name ≠ ""
    ∧ participantNameV8 none = "UnknownParticipant"
    ∧ participantNameV8 (some "") = "UnknownParticipant"
    ∧ participantNameV19 (some "") = "Unknown"
    ∧ (v8Outputs timestamp name filenames).recordDocId
        = timestamp ++ "_" ++ participantNameV8 name
    ∧ (v8Outputs timestamp name filenames).storagePaths
        = filenames.map fun fn =>
            "results/" ++ (v8Outputs timestamp name filenames).recordDocId ++ "/" ++ fn := by
  refine ⟨?_, ?_, rfl, rfl, rfl, rfl, rfl⟩
  · cases name with
    | none => decide
    | some s =>
      by_cases hs : s = ""
      · simp only [participantNameV8, if_pos hs]
        decide
      · simp only [participantNameV8, if_neg hs]
        exact hs
  · cases name with
    | none => decide
    | some s =>
      by_cases hs : s = ""
      · simp only [participantNameV19, if_pos hs]
        decide
      · simp only [participantNameV19, if_neg hs]
        exact hs

/-- Claim C10 (confirmed): in the V19 restoration loop the try block
evaluates the unbound identifier restoredValue and always raises
ReferenceError, so the catch branch stores the received value: rawData
carries every string field exactly as received and the latin1 repair is
never applied to form fields. -/
theorem c10_v19_restore_is_identity (body : List (String × String))
    (key value : String) :
    v19TryBranch key value = Except.error ()
    ∧ v19RestoreField key value = value
    ∧ buildRawDataV19 body = body := by
  refine ⟨rfl, rfl, ?_⟩
  have hid : (fun kv : String × String => (kv.1, v19RestoreField kv.1 kv.2))
      = fun kv => kv := by
    funext kv
    rfl
  rw [buildRawDataV19, hid, List.map_id']
